import Mathlib

/-!
# Verification of the BookBrainz set-diff / set-materialize mechanism

Shallow embedding of `src/func/set.ts` (the revision set-diffing and
append-only set reconciliation code): the comparator factory
`getComparisonFunc`, the differ `getUnchangedItems` / `getAddedItems` /
`getRemovedItems` (built on lodash `_.uniqWith`, `_.intersectionWith`,
`_.differenceWith`), and the materializers `createNewSetWithItems` /
`createNewRelationshipAttributeSetWithItems` (modelled as explicit state
passing over a persistence-operation log).
-/

/-- A primitive JavaScript field value as used by set items (ids are numbers,
names and textual values are strings).  Strict equality on primitives is
structural equality. -/
inductive FieldValue where
  | num : Nat → FieldValue
  | str : String → FieldValue
deriving DecidableEq

/-- A set item is a plain JavaScript object: an association list of field
names to primitive values (keys are unique in a JS object; lookup takes the
first match). -/
abbrev SetItemT := List (String × FieldValue)

/-- JavaScript property access `obj[field]`: `some v` when the field is
present, `none` for `undefined` (absent field). -/
def getField (obj : SetItemT) (field : String) : Option FieldValue :=
  (obj.find? (fun p => p.1 == field)).map (fun p => p.2)

/-- lodash `_.omit(obj, field)`: the object with the named field removed. -/
def omitField (obj : SetItemT) (field : String) : SetItemT :=
  obj.filter (fun p => !(p.1 == field))

/-- `getComparisonFunc` from `src/func/set.ts`: returns a comparison function
that walks `compareFields` and returns `false` on the first field where
`obj[field] !== other[field]`, and `true` when all named fields agree
(`undefined === undefined` holds when a field is absent on both sides, which
`Option` equality `none == none` mirrors). -/
def getComparisonFunc (compareFields : List String) : SetItemT → SetItemT → Bool :=
  fun obj other =>
    compareFields.all (fun field => getField obj field == getField other field)

section Differ

variable {α : Type}

/-- Worker for lodash `_.uniqWith`: `result` is the list of values pushed so
far; a value is dropped when the comparator relates it to an already-pushed
value (lodash `arrayIncludesWith(result, value, comparator)` evaluates
`comparator(value, r)` against each pushed `r`), otherwise it is pushed at
the end. -/
def uniqWithAux (cmp : α → α → Bool) : List α → List α → List α
  | result, [] => result
  | result, x :: xs =>
    if result.any (fun r => cmp x r) then uniqWithAux cmp result xs
    else uniqWithAux cmp (result ++ [x]) xs

/-- lodash `_.uniqWith(array, comparator)`: duplicate-free version of the
array under the comparator, keeping the first occurrence of each
equivalence. -/
def uniqWith (array : List α) (cmp : α → α → Bool) : List α :=
  uniqWithAux cmp [] array

/-- lodash `_.intersectionWith(array, values, comparator)`: values of `array`
that have a comparator-match in `values`.  lodash pushes a value only when it
is not already comparator-included in the result, which is exactly a
keep-first dedup of the matching values, so the function is the filter of
`array` by membership in `values` followed by `uniqWith`. -/
def intersectionWith (array values : List α) (cmp : α → α → Bool) : List α :=
  uniqWith (array.filter (fun x => values.any (fun y => cmp x y))) cmp

/-- lodash `_.differenceWith(array, values, comparator)`: values of `array`
with no comparator-match in `values` (no deduplication). -/
def differenceWith (array values : List α) (cmp : α → α → Bool) : List α :=
  array.filter (fun x => !(values.any (fun y => cmp x y)))

/-- `getUnchangedItems(oldSet, newSet, comparisonFunc)` from
`src/func/set.ts`:
`_.uniqWith(_.intersectionWith(oldSet, newSet, comparisonFunc), comparisonFunc)`. -/
def getUnchangedItems (oldSet newSet : List α) (comparisonFunc : α → α → Bool) : List α :=
  uniqWith (intersectionWith oldSet newSet comparisonFunc) comparisonFunc

/-- `getAddedItems(oldSet, newSet, comparisonFunc)` from `src/func/set.ts`:
`_.uniqWith(_.differenceWith(newSet, oldSet, comparisonFunc), comparisonFunc)`. -/
def getAddedItems (oldSet newSet : List α) (comparisonFunc : α → α → Bool) : List α :=
  uniqWith (differenceWith newSet oldSet comparisonFunc) comparisonFunc

/-- `getRemovedItems(oldSet, newSet, comparisonFunc)` from `src/func/set.ts`:
`_.uniqWith(_.differenceWith(oldSet, newSet, comparisonFunc), comparisonFunc)`. -/
def getRemovedItems (oldSet newSet : List α) (comparisonFunc : α → α → Bool) : List α :=
  uniqWith (differenceWith oldSet newSet comparisonFunc) comparisonFunc

/-- `export const removeItemsFromSet = getRemovedItems` from
`src/func/set.ts`. -/
def removeItemsFromSet (oldSet newSet : List α) (comparisonFunc : α → α → Bool) : List α :=
  getRemovedItems oldSet newSet comparisonFunc

end Differ

/-- The `value` object of a relationship attribute item
(`FormRelationshipAttributesT` carries `value: {textValue}`). -/
structure AttributeValueT where
  textValue : String
deriving DecidableEq

/-- A relationship attribute item as consumed by
`createNewRelationshipAttributeSetWithItems` (the source's
`FormRelationshipAttributesT`, imported there as `RelationshipAttributeT`):
an optional stored row id, an `attributeType`, and a nested `value` object
holding the text value. -/
structure RelationshipAttributeT where
  id : Option Nat
  attributeType : Nat
  value : AttributeValueT
deriving DecidableEq

/-- JavaScript property access `item[attr]` on a relationship attribute item,
used by `_.map(unchangedItems, idAttribute)`. -/
def RelationshipAttributeT.getAttr (it : RelationshipAttributeT) (attr : String) :
    Option FieldValue :=
  if attr = "id" then it.id.map (fun n => FieldValue.num n)
  else if attr = "attributeType" then some (FieldValue.num it.attributeType)
  else none

/-- One persistence (write) operation issued against the transaction by the
materializers.  Reads (`related(...).fetch`) are not writes and are not
recorded. -/
inductive DbOp where
  /-- `new SetModel().save(null, {transacting})`: inserts a Set row with the
  generated id. -/
  | insertSetRow : Nat → DbOp
  /-- One id attached to the new set by `collection.attach` (the set id and
  the value plucked from the item's `idAttribute` field; `none` when the
  item lacks the field). -/
  | attach : Nat → Option FieldValue → DbOp
  /-- `collection.create(_.omit(ident, idAttribute), {transacting})`: inserts
  an item row linked to the set — set id, generated row id, row data. -/
  | insertItemRow : Nat → Nat → SetItemT → DbOp
  /-- `collection.create(_.pick(ident, 'attributeType'), {transacting})` in
  the relationship-attribute variant — set id, generated row id, the
  picked `attributeType`. -/
  | insertAttributeRow : Nat → Nat → Nat → DbOp
  /-- `new RelationshipAttributeTextValue({attributeId, textValue}).save(...,
  {method: 'insert'})` — the linked attribute id and the text value. -/
  | insertAttributeValueRow : Nat → String → DbOp
deriving DecidableEq

/-- `true` exactly on Set row inserts. -/
def DbOp.isInsertSetRow : DbOp → Bool
  | .insertSetRow _ => true
  | _ => false

/-- The plucked id referenced by an attach operation, `none` on other
operations. -/
def DbOp.attachedId : DbOp → Option (Option FieldValue)
  | .attach _ i => some i
  | _ => none

/-- The row data of an item-row insert, `none` on other operations. -/
def DbOp.itemRowData : DbOp → Option SetItemT
  | .insertItemRow _ _ d => some d
  | _ => none

/-- The generated row id of an attribute-row insert, `none` on other
operations. -/
def DbOp.attributeRowId : DbOp → Option Nat
  | .insertAttributeRow _ rowId _ => some rowId
  | _ => none

/-- The `(attributeId, textValue)` pair of a `RelationshipAttributeValue`
insert, `none` on other operations. -/
def DbOp.valueRow : DbOp → Option (Nat × String)
  | .insertAttributeValueRow attrId t => some (attrId, t)
  | _ => none

/-- The state of the database transaction: a fresh-id counter and the log of
write operations performed so far, in order. -/
structure DbState where
  nextId : Nat
  log : List DbOp
deriving DecidableEq

/-- The error thrown by the materializers (`throw Error(...)`). -/
inductive SetFuncError where
  | invalidArgument : String → SetFuncError
deriving DecidableEq

/-- `new SetModel().save(null, {transacting})`: insert a Set row with a fresh
generated id and return it. -/
def saveNewSet (st : DbState) : Nat × DbState :=
  (st.nextId, { nextId := st.nextId + 1, log := st.log ++ [DbOp.insertSetRow st.nextId] })

/-- `collection.attach(ids, {transacting})`: one attach operation per plucked
id, in order. -/
def attachItems (setId : Nat) (ids : List (Option FieldValue)) (st : DbState) : DbState :=
  { nextId := st.nextId, log := st.log ++ ids.map (fun i => DbOp.attach setId i) }

/-- The `_.map(addedItems, (ident) => collection.create(_.omit(ident,
idAttribute), {transacting}))` loop of `createNewSetWithItems`: each added
item becomes one item-row insert with a fresh generated id and the incoming
`idAttribute` field omitted. -/
def createItems (setId : Nat) (idAttribute : String) (items : List SetItemT)
    (st : DbState) : DbState :=
  match items with
  | [] => st
  | ident :: rest =>
    createItems setId idAttribute rest
      { nextId := st.nextId + 1,
        log := st.log ++ [DbOp.insertItemRow setId st.nextId (omitField ident idAttribute)] }

/-- `createNewSetWithItems` from `src/func/set.ts`, as explicit state passing
over the transaction log: validate `itemsAttribute`, short-circuit to `none`
when both partitions are empty, otherwise insert one Set row, attach every
unchanged item by its plucked `idAttribute` value, and create one item row
per added item (id field omitted).  Returns the new set id (or `none`)
alongside the final state; the thrown `Error` becomes `Except.error` with
the state untouched. -/
def createNewSetWithItems (unchangedItems addedItems : List SetItemT)
    (itemsAttribute idAttribute : String) (st : DbState) :
    Except SetFuncError (Option Nat) × DbState :=
  if itemsAttribute = "" then
    (Except.error (SetFuncError.invalidArgument
      "itemsAttribute must be set in createNewSetWithItems"), st)
  else if unchangedItems.isEmpty && addedItems.isEmpty then
    (Except.ok none, st)
  else
    let res := saveNewSet st
    let st2 := attachItems res.1
      (unchangedItems.map (fun it => getField it idAttribute)) res.2
    let st3 := createItems res.1 idAttribute addedItems st2
    (Except.ok (some res.1), st3)

/-- The `_.map(addedItems, ...)` loop of
`createNewRelationshipAttributeSetWithItems`: each added item becomes one
attribute-row insert (picking only `attributeType`) with a fresh generated
id, immediately followed by one `RelationshipAttributeValue` insert linked
to that generated id and carrying the item's `value.textValue`. -/
def createAttributeItems (setId : Nat) (items : List RelationshipAttributeT)
    (st : DbState) : DbState :=
  match items with
  | [] => st
  | ident :: rest =>
    createAttributeItems setId rest
      { nextId := st.nextId + 1,
        log := st.log ++ [DbOp.insertAttributeRow setId st.nextId ident.attributeType,
          DbOp.insertAttributeValueRow st.nextId ident.value.textValue] }

/-- `createNewRelationshipAttributeSetWithItems` from `src/func/set.ts`:
like `createNewSetWithItems` but over relationship attribute items, creating
a linked `RelationshipAttributeValue` row for every added item. -/
def createNewRelationshipAttributeSetWithItems
    (unchangedItems addedItems : List RelationshipAttributeT)
    (itemsAttribute idAttribute : String) (st : DbState) :
    Except SetFuncError (Option Nat) × DbState :=
  if itemsAttribute = "" then
    (Except.error (SetFuncError.invalidArgument
      "itemsAttribute must be set in createNewRelationshipAttributeSetWithItems"), st)
  else if unchangedItems.isEmpty && addedItems.isEmpty then
    (Except.ok none, st)
  else
    let res := saveNewSet st
    let st2 := attachItems res.1
      (unchangedItems.map (fun it => it.getAttr idAttribute)) res.2
    let st3 := createAttributeItems res.1 addedItems st2
    (Except.ok (some res.1), st3)

/-- The item-row inserts produced by `createItems` starting from a given
fresh-id counter, as an explicit list. -/
def itemCreateOps (setId : Nat) (idAttribute : String) (startId : Nat) :
    List SetItemT → List DbOp
  | [] => []
  | ident :: rest =>
    DbOp.insertItemRow setId startId (omitField ident idAttribute) ::
      itemCreateOps setId idAttribute (startId + 1) rest

/-- The operations produced by `createAttributeItems` starting from a given
fresh-id counter, as an explicit list. -/
def attributeCreateOps (setId : Nat) (startId : Nat) :
    List RelationshipAttributeT → List DbOp
  | [] => []
  | ident :: rest =>
    DbOp.insertAttributeRow setId startId ident.attributeType ::
      DbOp.insertAttributeValueRow startId ident.value.textValue ::
        attributeCreateOps setId (startId + 1) rest

section DifferLemmas

variable {α : Type}

/-- Values already pushed stay in the output of the `uniqWith` worker. -/
theorem mem_res_uniqWithAux (cmp : α → α → Bool) (l : List α) :
    ∀ res : List α, ∀ y ∈ res, y ∈ uniqWithAux cmp res l := by
  induction l with
  | nil => intro res y hy; simpa [uniqWithAux] using hy
  | cons x xs ih =>
    intro res y hy
    simp only [uniqWithAux]
    by_cases h : (res.any fun r => cmp x r) = true
    · rw [if_pos h]; exact ih res y hy
    · rw [if_neg h]; exact ih (res ++ [x]) y (by simp [hy])

/-- Every value in the output of the `uniqWith` worker comes from the pushed
values or from the input. -/
theorem mem_of_mem_uniqWithAux (cmp : α → α → Bool) (l : List α) :
    ∀ res : List α, ∀ y ∈ uniqWithAux cmp res l, y ∈ res ∨ y ∈ l := by
  induction l with
  | nil => intro res y hy; left; simpa [uniqWithAux] using hy
  | cons x xs ih =>
    intro res y hy
    simp only [uniqWithAux] at hy
    by_cases h : (res.any fun r => cmp x r) = true
    · rw [if_pos h] at hy
      rcases ih res y hy with h1 | h1
      · exact Or.inl h1
      · exact Or.inr (List.mem_cons_of_mem _ h1)
    · rw [if_neg h] at hy
      rcases ih (res ++ [x]) y hy with h1 | h1
      · rcases List.mem_append.mp h1 with h2 | h2
        · exact Or.inl h2
        · simp only [List.mem_singleton] at h2
          subst h2; exact Or.inr (List.mem_cons_self _ _)
      · exact Or.inr (List.mem_cons_of_mem _ h1)

/-- Every input value is represented in the output of the `uniqWith` worker:
it is kept itself, or the comparator relates it to a kept value. -/
theorem uniqWithAux_covers (cmp : α → α → Bool) (l : List α) :
    ∀ res : List α, ∀ x ∈ l, ∃ r ∈ uniqWithAux cmp res l, x = r ∨ cmp x r = true := by
  induction l with
  | nil => intro res x hx; cases hx
  | cons a xs ih =>
    intro res x hx
    simp only [uniqWithAux]
    by_cases h : (res.any fun r => cmp a r) = true
    · rw [if_pos h]
      rcases List.mem_cons.mp hx with rfl | hx2
      · obtain ⟨r, hr, hcr⟩ := List.any_eq_true.mp h
        exact ⟨r, mem_res_uniqWithAux cmp xs res r hr, Or.inr hcr⟩
      · exact ih res x hx2
    · rw [if_neg h]
      rcases List.mem_cons.mp hx with rfl | hx2
      · exact ⟨x, mem_res_uniqWithAux cmp xs (res ++ [x]) x (by simp), Or.inl rfl⟩
      · exact ih (res ++ [a]) x hx2

/-- The output of the `uniqWith` worker never relates a later value to an
earlier one: every pushed value was checked against everything pushed
before it. -/
theorem uniqWithAux_pairwise (cmp : α → α → Bool) (l : List α) :
    ∀ res : List α, res.Pairwise (fun a b => cmp b a = false) →
      (uniqWithAux cmp res l).Pairwise (fun a b => cmp b a = false) := by
  induction l with
  | nil => intro res hres; simpa [uniqWithAux] using hres
  | cons x xs ih =>
    intro res hres
    simp only [uniqWithAux]
    by_cases h : (res.any fun r => cmp x r) = true
    · rw [if_pos h]; exact ih res hres
    · rw [if_neg h]
      refine ih (res ++ [x]) ?_
      rw [List.pairwise_append]
      refine ⟨hres, List.pairwise_singleton _ _, ?_⟩
      intro a ha b hb
      simp only [List.mem_singleton] at hb
      subst hb
      have h2 := List.any_eq_false.mp (Bool.eq_false_iff.mpr h)
      simpa using h2 a ha

/-- Running the `uniqWith` worker on a list that is already duplicate-free
under the comparator (and unrelated to the pushed values) keeps everything. -/
theorem uniqWithAux_eq_append (cmp : α → α → Bool) (l : List α) :
    ∀ res : List α, l.Pairwise (fun a b => cmp b a = false) →
      (∀ x ∈ l, ∀ r ∈ res, cmp x r = false) →
      uniqWithAux cmp res l = res ++ l := by
  induction l with
  | nil => intro res _ _; simp [uniqWithAux]
  | cons x xs ih =>
    intro res hp hcross
    rw [List.pairwise_cons] at hp
    simp only [uniqWithAux]
    have hx : (res.any fun r => cmp x r) = false := by
      rw [List.any_eq_false]
      intro r hr
      simp [hcross x (List.mem_cons_self x xs) r hr]
    rw [if_neg (by simp [hx])]
    rw [ih (res ++ [x]) hp.2 ?_]
    · simp
    · intro y hy r hr
      rcases List.mem_append.mp hr with h1 | h1
      · exact hcross y (List.mem_cons_of_mem _ hy) r h1
      · simp only [List.mem_singleton] at h1
        subst h1
        exact hp.1 y hy

/-- `uniqWith` output is a subset of its input. -/
theorem mem_of_mem_uniqWith {cmp : α → α → Bool} {l : List α} {y : α}
    (hy : y ∈ uniqWith l cmp) : y ∈ l :=
  (mem_of_mem_uniqWithAux cmp l [] y hy).resolve_left (by simp)

/-- Every input value of `uniqWith` is the kept representative of its class
or comparator-related to one. -/
theorem uniqWith_covers (cmp : α → α → Bool) (l : List α) (x : α) (hx : x ∈ l) :
    ∃ r ∈ uniqWith l cmp, x = r ∨ cmp x r = true :=
  uniqWithAux_covers cmp l [] x hx

/-- `uniqWith` output never relates a later value to an earlier one. -/
theorem uniqWith_pairwise (cmp : α → α → Bool) (l : List α) :
    (uniqWith l cmp).Pairwise (fun a b => cmp b a = false) :=
  uniqWithAux_pairwise cmp l [] List.Pairwise.nil

/-- `uniqWith` is idempotent. -/
theorem uniqWith_idem (cmp : α → α → Bool) (l : List α) :
    uniqWith (uniqWith l cmp) cmp = uniqWith l cmp := by
  have h := uniqWithAux_eq_append cmp (uniqWith l cmp) []
    (uniqWith_pairwise cmp l) (by simp)
  simpa [uniqWith] using h

/-- Unchanged items come from the old collection and have a match in the new
one. -/
theorem mem_getUnchangedItems {O N : List α} {cmp : α → α → Bool} {u : α}
    (hu : u ∈ getUnchangedItems O N cmp) :
    u ∈ O ∧ ∃ n ∈ N, cmp u n = true := by
  have h1 : u ∈ intersectionWith O N cmp := mem_of_mem_uniqWith hu
  have h2 := mem_of_mem_uniqWith h1
  rw [List.mem_filter] at h2
  exact ⟨h2.1, List.any_eq_true.mp h2.2⟩

/-- Added items come from the new collection and have no match in the old
one. -/
theorem mem_getAddedItems {O N : List α} {cmp : α → α → Bool} {a : α}
    (ha : a ∈ getAddedItems O N cmp) :
    a ∈ N ∧ ∀ o ∈ O, cmp a o = false := by
  have h1 := mem_of_mem_uniqWith ha
  rw [differenceWith, List.mem_filter] at h1
  refine ⟨h1.1, ?_⟩
  have h2 := h1.2
  simp only [Bool.not_eq_eq_eq_not, Bool.not_true] at h2
  intro o ho
  simpa using List.any_eq_false.mp h2 o ho

/-- Every old item with a match in the new collection is represented in the
unchanged partition. -/
theorem getUnchangedItems_covers (O N : List α) (cmp : α → α → Bool)
    (htrans : ∀ a b c, cmp a b = true → cmp b c = true → cmp a c = true)
    (o n : α) (ho : o ∈ O) (hn : n ∈ N) (hon : cmp o n = true) :
    ∃ u ∈ getUnchangedItems O N cmp, o = u ∨ cmp o u = true := by
  have hfil : o ∈ O.filter (fun x => N.any (fun y => cmp x y)) := by
    rw [List.mem_filter]
    exact ⟨ho, List.any_eq_true.mpr ⟨n, hn, hon⟩⟩
  obtain ⟨r, hr, hor⟩ := uniqWith_covers cmp _ o hfil
  obtain ⟨u, hu, hru⟩ := uniqWith_covers cmp (intersectionWith O N cmp) r hr
  refine ⟨u, hu, ?_⟩
  rcases hor with rfl | hor
  · exact hru
  · rcases hru with rfl | hru
    · exact Or.inr hor
    · exact Or.inr (htrans _ _ _ hor hru)

/-- Every new item with no match in the old collection is represented in the
added partition. -/
theorem getAddedItems_covers (O N : List α) (cmp : α → α → Bool)
    (n : α) (hn : n ∈ N) (hno : ∀ o ∈ O, cmp n o = false) :
    ∃ a ∈ getAddedItems O N cmp, n = a ∨ cmp n a = true := by
  have hfil : n ∈ differenceWith N O cmp := by
    rw [differenceWith, List.mem_filter]
    refine ⟨hn, ?_⟩
    simp only [Bool.not_eq_eq_eq_not, Bool.not_true]
    exact List.any_eq_false.mpr (by intro o ho; simp [hno o ho])
  exact uniqWith_covers cmp _ n hfil

/-- In a list that never relates a later value to an earlier one, a value
related (under a symmetric transitive comparator) to some member matches
exactly one member. -/
theorem countP_eq_one_of_pairwise (cmp : α → α → Bool)
    (hsymm : ∀ a b, cmp a b = true → cmp b a = true)
    (htrans : ∀ a b c, cmp a b = true → cmp b c = true → cmp a c = true)
    (n : α) (l : List α) :
    l.Pairwise (fun a b => cmp b a = false) →
      ∀ u ∈ l, cmp n u = true → l.countP (fun y => cmp n y) = 1 := by
  induction l with
  | nil => intro _ u hu; cases hu
  | cons x xs ih =>
    intro hp u hu hnu
    rw [List.pairwise_cons] at hp
    by_cases hx : cmp n x = true
    · rw [List.countP_cons_of_pos _ _ hx]
      have h0 : xs.countP (fun y => cmp n y) = 0 := by
        rw [List.countP_eq_zero]
        intro y hy hcy
        have h1 : cmp y n = true := hsymm _ _ hcy
        have h2 : cmp y x = true := htrans _ _ _ h1 hx
        have h3 := hp.1 y hy
        rw [h3] at h2
        cases h2
      rw [h0]
    · rcases List.mem_cons.mp hu with rfl | hu2
      · exact absurd hnu hx
      · rw [List.countP_cons_of_neg _ _ (by simpa using hx)]
        exact ih hp.2 u hu2 hnu

end DifferLemmas

section MaterializerLemmas

/-- Omitting a field really removes it: looking it up afterwards gives
`undefined`. -/
theorem getField_omitField (obj : SetItemT) (field : String) :
    getField (omitField obj field) field = none := by
  unfold getField omitField
  rw [Option.map_eq_none', List.find?_eq_none]
  intro p hp
  rw [List.mem_filter] at hp
  simpa using hp.2

/-- `createItems` only appends to the log: the explicit list of item-row
inserts, numbered from the current fresh-id counter. -/
theorem createItems_log (setId : Nat) (idAttribute : String)
    (items : List SetItemT) :
    ∀ st : DbState, (createItems setId idAttribute items st).log
      = st.log ++ itemCreateOps setId idAttribute st.nextId items := by
  induction items with
  | nil => intro st; simp [createItems, itemCreateOps]
  | cons ident rest ih =>
    intro st
    simp only [createItems, itemCreateOps]
    rw [ih]
    simp

/-- `createAttributeItems` only appends to the log: the explicit list of
attribute-row and value-row inserts, numbered from the current fresh-id
counter. -/
theorem createAttributeItems_log (setId : Nat)
    (items : List RelationshipAttributeT) :
    ∀ st : DbState, (createAttributeItems setId items st).log
      = st.log ++ attributeCreateOps setId st.nextId items := by
  induction items with
  | nil => intro st; simp [createAttributeItems, attributeCreateOps]
  | cons ident rest ih =>
    intro st
    simp only [createAttributeItems, attributeCreateOps]
    rw [ih]
    simp

/-- Item-row inserts are not Set row inserts. -/
theorem itemCreateOps_countP_setRow (setId : Nat) (idAttribute : String)
    (items : List SetItemT) :
    ∀ n : Nat, (itemCreateOps setId idAttribute n items).countP DbOp.isInsertSetRow = 0 := by
  induction items with
  | nil => intro n; rfl
  | cons ident rest ih =>
    intro n
    simp [itemCreateOps, List.countP_cons, DbOp.isInsertSetRow, ih (n + 1)]

/-- Item-row inserts are not attach operations. -/
theorem itemCreateOps_filterMap_attachedId (setId : Nat) (idAttribute : String)
    (items : List SetItemT) :
    ∀ n : Nat, (itemCreateOps setId idAttribute n items).filterMap DbOp.attachedId = [] := by
  induction items with
  | nil => intro n; rfl
  | cons ident rest ih =>
    intro n
    simp [itemCreateOps, List.filterMap_cons, DbOp.attachedId, ih (n + 1)]

/-- The item rows inserted for the added items are exactly the added items
with the id field omitted, in order. -/
theorem itemCreateOps_filterMap_itemRowData (setId : Nat) (idAttribute : String)
    (items : List SetItemT) :
    ∀ n : Nat, (itemCreateOps setId idAttribute n items).filterMap DbOp.itemRowData
      = items.map (fun it => omitField it idAttribute) := by
  induction items with
  | nil => intro n; rfl
  | cons ident rest ih =>
    intro n
    simp [itemCreateOps, List.filterMap_cons, DbOp.itemRowData, ih (n + 1)]

/-- Attach operations contribute exactly the plucked ids. -/
theorem filterMap_attach_attachedId {β : Type} (setId : Nat) (f : β → Option FieldValue)
    (l : List β) :
    (l.map (fun it => DbOp.attach setId (f it))).filterMap DbOp.attachedId = l.map f := by
  induction l with
  | nil => rfl
  | cons i rest ih => simp [List.filterMap_cons, DbOp.attachedId, ih]

/-- Attach operations are not Set row inserts. -/
theorem countP_attach_setRow {β : Type} (setId : Nat) (f : β → Option FieldValue)
    (l : List β) :
    (l.map (fun it => DbOp.attach setId (f it))).countP DbOp.isInsertSetRow = 0 := by
  induction l with
  | nil => rfl
  | cons i rest ih => simp [List.countP_cons, DbOp.isInsertSetRow, ih]

/-- Attach operations insert no item rows. -/
theorem filterMap_attach_itemRowData {β : Type} (setId : Nat) (f : β → Option FieldValue)
    (l : List β) :
    (l.map (fun it => DbOp.attach setId (f it))).filterMap DbOp.itemRowData = [] := by
  induction l with
  | nil => rfl
  | cons i rest ih => simp [List.filterMap_cons, DbOp.itemRowData, ih]

/-- Attach operations insert no attribute rows. -/
theorem filterMap_attach_attributeRowId {β : Type} (setId : Nat) (f : β → Option FieldValue)
    (l : List β) :
    (l.map (fun it => DbOp.attach setId (f it))).filterMap DbOp.attributeRowId = [] := by
  induction l with
  | nil => rfl
  | cons i rest ih => simp [List.filterMap_cons, DbOp.attributeRowId, ih]

/-- Attach operations insert no value rows. -/
theorem filterMap_attach_valueRow {β : Type} (setId : Nat) (f : β → Option FieldValue)
    (l : List β) :
    (l.map (fun it => DbOp.attach setId (f it))).filterMap DbOp.valueRow = [] := by
  induction l with
  | nil => rfl
  | cons i rest ih => simp [List.filterMap_cons, DbOp.valueRow, ih]

/-- One attribute-row id is generated per added attribute item. -/
theorem attributeCreateOps_rowId_length (setId : Nat)
    (items : List RelationshipAttributeT) :
    ∀ n : Nat, ((attributeCreateOps setId n items).filterMap DbOp.attributeRowId).length
      = items.length := by
  induction items with
  | nil => intro n; rfl
  | cons ident rest ih =>
    intro n
    simp [attributeCreateOps, List.filterMap_cons, DbOp.attributeRowId, DbOp.valueRow,
      ih (n + 1)]

/-- The value rows inserted by the added-items loop pair each generated
attribute-row id with the corresponding item's `value.textValue`, in
order. -/
theorem attributeCreateOps_valueRows (setId : Nat)
    (items : List RelationshipAttributeT) :
    ∀ n : Nat, (attributeCreateOps setId n items).filterMap DbOp.valueRow
      = ((attributeCreateOps setId n items).filterMap DbOp.attributeRowId).zip
          (items.map (fun it => it.value.textValue)) := by
  induction items with
  | nil => intro n; rfl
  | cons ident rest ih =>
    intro n
    simp only [attributeCreateOps, List.filterMap_cons, DbOp.attributeRowId, DbOp.valueRow,
      List.map_cons, List.zip_cons_cons]
    rw [ih (n + 1)]

/-- The log shape of a materializing `createNewSetWithItems` call: one Set
row insert, the attaches for the unchanged items, then the item-row inserts
for the added items. -/
theorem createNewSetWithItems_log (unchangedItems addedItems : List SetItemT)
    (itemsAttribute idAttribute : String) (st : DbState)
    (hattr : itemsAttribute ≠ "")
    (hemp : (unchangedItems.isEmpty && addedItems.isEmpty) = false) :
    (createNewSetWithItems unchangedItems addedItems itemsAttribute idAttribute st).2.log
      = st.log ++ (DbOp.insertSetRow st.nextId ::
          (unchangedItems.map (fun it => DbOp.attach st.nextId (getField it idAttribute)) ++
            itemCreateOps st.nextId idAttribute (st.nextId + 1) addedItems)) := by
  unfold createNewSetWithItems
  rw [if_neg hattr, if_neg (by simp [hemp])]
  simp only [saveNewSet, attachItems]
  rw [createItems_log]
  simp

/-- The log shape of a materializing
`createNewRelationshipAttributeSetWithItems` call: one Set row insert, the
attaches for the unchanged items, then the paired attribute-row and
value-row inserts for the added items. -/
theorem createNewRelationshipAttributeSetWithItems_log
    (unchangedItems addedItems : List RelationshipAttributeT)
    (itemsAttribute idAttribute : String) (st : DbState)
    (hattr : itemsAttribute ≠ "")
    (hemp : (unchangedItems.isEmpty && addedItems.isEmpty) = false) :
    (createNewRelationshipAttributeSetWithItems unchangedItems addedItems
        itemsAttribute idAttribute st).2.log
      = st.log ++ (DbOp.insertSetRow st.nextId ::
          (unchangedItems.map (fun it => DbOp.attach st.nextId (it.getAttr idAttribute)) ++
            attributeCreateOps st.nextId (st.nextId + 1) addedItems)) := by
  unfold createNewRelationshipAttributeSetWithItems
  rw [if_neg hattr, if_neg (by simp [hemp])]
  simp only [saveNewSet, attachItems]
  rw [createAttributeItems_log]
  simp

end MaterializerLemmas

/-- C1 (counterexample): with the comparator that never relates anything and
`O = []`, `N = [0]`, the item `0` of `N` is comparator-equivalent to no item
of `unchanged ∪ added` (its count of matches is `0`, not `1`), so the claim
fails for arbitrary comparators. -/
theorem unchanged_added_partition_counterexample :
    ¬ ((∀ u ∈ getUnchangedItems ([] : List Nat) [0] (fun _ _ => false),
          ∀ a ∈ getAddedItems ([] : List Nat) [0] (fun _ _ => false),
            (fun _ _ => false) u a = false ∧ (fun _ _ => false) a u = false) ∧
       (∀ n ∈ ([0] : List Nat),
          ((getUnchangedItems ([] : List Nat) [0] (fun _ _ => false) ++
              getAddedItems ([] : List Nat) [0] (fun _ _ => false)).countP
            (fun y => (fun _ _ => false) n y)) = 1)) := by decide

/-- C1 (amended): for every pair of finite sequences `O`, `N` and every
comparator `cmp` that is an equivalence (reflexive, symmetric, transitive —
as the field-equality comparators built by `getComparisonFunc` are),
`getUnchangedItems O N cmp` and `getAddedItems O N cmp` are disjoint under
`cmp`, and every item of `N` is `cmp`-equivalent to exactly one item of
their union. -/
theorem unchanged_added_partition {α : Type} (O N : List α) (cmp : α → α → Bool)
    (hrefl : ∀ a, cmp a a = true)
    (hsymm : ∀ a b, cmp a b = true → cmp b a = true)
    (htrans : ∀ a b c, cmp a b = true → cmp b c = true → cmp a c = true) :
    (∀ u ∈ getUnchangedItems O N cmp, ∀ a ∈ getAddedItems O N cmp,
        cmp u a = false ∧ cmp a u = false) ∧
    (∀ n ∈ N, (getUnchangedItems O N cmp ++ getAddedItems O N cmp).countP
        (fun y => cmp n y) = 1) := by
  constructor
  · intro u hu a ha
    obtain ⟨huO, -⟩ := mem_getUnchangedItems hu
    obtain ⟨-, hano⟩ := mem_getAddedItems ha
    have h2 : cmp a u = false := hano u huO
    refine ⟨?_, h2⟩
    cases hcu : cmp u a
    · rfl
    · exact absurd (hsymm _ _ hcu) (by simp [h2])
  · intro n hn
    rw [List.countP_append]
    by_cases hO : ∃ o ∈ O, cmp n o = true
    · obtain ⟨o, ho, hno⟩ := hO
      obtain ⟨u, hu, hou⟩ :=
        getUnchangedItems_covers O N cmp htrans o n ho hn (hsymm _ _ hno)
      have hnu : cmp n u = true := by
        rcases hou with rfl | h
        · exact hno
        · exact htrans _ _ _ hno h
      have h1 := countP_eq_one_of_pairwise cmp hsymm htrans n
        (getUnchangedItems O N cmp) (uniqWith_pairwise cmp _) u hu hnu
      have h0 : (getAddedItems O N cmp).countP (fun y => cmp n y) = 0 := by
        rw [List.countP_eq_zero]
        intro a ha hna
        obtain ⟨-, hano⟩ := mem_getAddedItems ha
        have h2 : cmp a o = true := htrans _ _ _ (hsymm _ _ hna) hno
        rw [hano o ho] at h2
        cases h2
      rw [h1, h0]
    · push_neg at hO
      have hO2 : ∀ o ∈ O, cmp n o = false := by
        intro o ho
        cases hc : cmp n o
        · rfl
        · exact absurd hc (hO o ho)
      obtain ⟨a, ha, hna0⟩ := getAddedItems_covers O N cmp n hn hO2
      have hna : cmp n a = true := by
        rcases hna0 with rfl | h
        · exact hrefl n
        · exact h
      have h1 := countP_eq_one_of_pairwise cmp hsymm htrans n
        (getAddedItems O N cmp) (uniqWith_pairwise cmp _) a ha hna
      have h0 : (getUnchangedItems O N cmp).countP (fun y => cmp n y) = 0 := by
        rw [List.countP_eq_zero]
        intro u hu hnu
        obtain ⟨huO, -⟩ := mem_getUnchangedItems hu
        rw [hO2 u huO] at hnu
        cases hnu
      rw [h1, h0]

/-- Witness for the amended C1 at a concrete input. -/
theorem unchanged_added_partition_witness :
    (∀ u ∈ getUnchangedItems [true] [true, false] (fun a b => a == b),
        ∀ a ∈ getAddedItems [true] [true, false] (fun a b => a == b),
          (u == a) = false ∧ (a == u) = false) ∧
    (∀ n ∈ [true, false],
        ((getUnchangedItems [true] [true, false] (fun a b => a == b) ++
            getAddedItems [true] [true, false] (fun a b => a == b)).countP
          (fun y => n == y)) = 1) :=
  unchanged_added_partition [true] [true, false] (fun a b => a == b)
    (by decide) (by decide) (by decide)

/-- C7: `getRemovedItems(O, N, cmp)` is `getAddedItems(N, O, cmp)` — both
are the deduplicated difference of `O` against `N`. -/
theorem getRemovedItems_eq_getAddedItems_swapped {α : Type} (O N : List α)
    (cmp : α → α → Bool) :
    getRemovedItems O N cmp = getAddedItems N O cmp := rfl

/-- C8 (counterexample): with the comparator that never relates anything and
`O = [0]`, diffing `O` against itself yields an empty unchanged partition
(not the dedup of `O`) and nonempty added and removed partitions, so the
claim fails for arbitrary comparators. -/
theorem diff_self_idempotence_counterexample :
    ¬ (getUnchangedItems [0] [0] (fun _ _ => false)
          = uniqWith [0] (fun _ _ => false) ∧
       getAddedItems [0] [0] (fun _ _ => false) = ([] : List Nat) ∧
       getRemovedItems [0] [0] (fun _ _ => false) = ([] : List Nat)) := by decide

/-- C8 (amended): for every finite sequence `O` and every reflexive
comparator `cmp`, diffing `O` against itself yields
`getUnchangedItems O O cmp = uniqWith O cmp` (the dedup of `O` under `cmp`)
and empty added and removed partitions. -/
theorem diff_self_idempotence {α : Type} (O : List α) (cmp : α → α → Bool)
    (hrefl : ∀ a, cmp a a = true) :
    getUnchangedItems O O cmp = uniqWith O cmp ∧
    getAddedItems O O cmp = [] ∧ getRemovedItems O O cmp = [] := by
  have hdiff : differenceWith O O cmp = [] := by
    rw [differenceWith, List.filter_eq_nil_iff]
    intro a ha
    simp [List.any_eq_true.mpr ⟨a, ha, hrefl a⟩]
  refine ⟨?_, ?_, ?_⟩
  · show uniqWith (intersectionWith O O cmp) cmp = uniqWith O cmp
    have hfil : O.filter (fun x => O.any fun y => cmp x y) = O := by
      rw [List.filter_eq_self]
      intro a ha
      exact List.any_eq_true.mpr ⟨a, ha, hrefl a⟩
    unfold intersectionWith
    rw [hfil, uniqWith_idem]
  · show uniqWith (differenceWith O O cmp) cmp = []
    rw [hdiff]; rfl
  · show uniqWith (differenceWith O O cmp) cmp = []
    rw [hdiff]; rfl

/-- Witness for the amended C8 at a concrete input. -/
theorem diff_self_idempotence_witness :
    getUnchangedItems [true, true, false] [true, true, false] (fun a b => a == b)
        = uniqWith [true, true, false] (fun a b => a == b) ∧
    getAddedItems [true, true, false] [true, true, false] (fun a b => a == b) = [] ∧
    getRemovedItems [true, true, false] [true, true, false] (fun a b => a == b) = [] :=
  diff_self_idempotence [true, true, false] (fun a b => a == b) (by decide)

/-- C9: every element of `getUnchangedItems O N cmp` is an element of the
old collection `O` — the representatives carry the old stored row
identities. -/
theorem getUnchangedItems_subset_old {α : Type} (O N : List α)
    (cmp : α → α → Bool) (x : α) (hx : x ∈ getUnchangedItems O N cmp) :
    x ∈ O :=
  (mem_getUnchangedItems hx).1

/-- Witness for C9 at a concrete input. -/
theorem getUnchangedItems_subset_old_witness :
    (0 : Nat) ∈ getUnchangedItems [0] [0] (fun a b => a == b) ∧ (0 : Nat) ∈ [0] :=
  ⟨by decide, getUnchangedItems_subset_old [0] [0] (fun a b => a == b) 0 (by decide)⟩

/-- C4: the function built by `getComparisonFunc fields` returns `true` on
`(a, b)` exactly when `a` and `b` agree (as possibly-absent values, i.e.
JavaScript strict equality with `undefined` for a missing field) on every
named field; in particular a field present on one side and absent on the
other forces `false`. -/
theorem getComparisonFunc_spec (fields : List String) (a b : SetItemT) :
    (getComparisonFunc fields a b = true ↔
        ∀ f ∈ fields, getField a f = getField b f) ∧
    (∀ f ∈ fields,
        ((getField a f).isSome = true ∧ getField b f = none) ∨
          (getField a f = none ∧ (getField b f).isSome = true) →
        getComparisonFunc fields a b = false) := by
  have hiff : getComparisonFunc fields a b = true ↔
      ∀ f ∈ fields, getField a f = getField b f := by
    simp [getComparisonFunc, List.all_eq_true, beq_iff_eq]
  refine ⟨hiff, ?_⟩
  intro f hf hmix
  cases hres : getComparisonFunc fields a b
  · rfl
  · have h1 := hiff.mp hres f hf
    rcases hmix with ⟨hsome, hnone⟩ | ⟨hnone, hsome⟩
    · simp [h1, hnone] at hsome
    · simp [h1.symm, hnone] at hsome

/-- Witness for C4: a field present on the left and absent on the right
forces inequality. -/
theorem getComparisonFunc_spec_witness :
    getComparisonFunc ["name"] [("name", FieldValue.str "x")] [] = false :=
  (getComparisonFunc_spec ["name"] [("name", FieldValue.str "x")] []).2 "name"
    (by decide) (Or.inl ⟨by decide, by decide⟩)

/-- C2: a materializing `createNewSetWithItems` call (non-blank
`itemsAttribute`, partitions not both empty) appends to the log exactly one
new Set row insert, one attach per unchanged item referencing that item's
stored id field, and one new item row per added item whose persisted data
never carries the incoming id field. -/
theorem createNewSetWithItems_effects
    (unchangedItems addedItems : List SetItemT)
    (itemsAttribute idAttribute : String) (st : DbState)
    (hattr : itemsAttribute ≠ "")
    (hne : ¬(unchangedItems = [] ∧ addedItems = [])) :
    ∃ newOps : List DbOp,
      (createNewSetWithItems unchangedItems addedItems itemsAttribute idAttribute st).2.log
          = st.log ++ newOps ∧
      newOps.countP DbOp.isInsertSetRow = 1 ∧
      newOps.filterMap DbOp.attachedId
          = unchangedItems.map (fun it => getField it idAttribute) ∧
      newOps.filterMap DbOp.itemRowData
          = addedItems.map (fun it => omitField it idAttribute) ∧
      (∀ d ∈ newOps.filterMap DbOp.itemRowData, getField d idAttribute = none) := by
  have hemp : (unchangedItems.isEmpty && addedItems.isEmpty) = false := by
    cases unchangedItems <;> cases addedItems <;> simp_all
  refine ⟨DbOp.insertSetRow st.nextId ::
      (unchangedItems.map (fun it => DbOp.attach st.nextId (getField it idAttribute)) ++
        itemCreateOps st.nextId idAttribute (st.nextId + 1) addedItems),
    createNewSetWithItems_log unchangedItems addedItems itemsAttribute idAttribute st
      hattr hemp, ?_, ?_, ?_, ?_⟩
  · simp [List.countP_cons, List.countP_append, DbOp.isInsertSetRow,
      countP_attach_setRow, itemCreateOps_countP_setRow]
  · rw [List.filterMap_cons]
    simp only [DbOp.attachedId]
    rw [List.filterMap_append, filterMap_attach_attachedId,
      itemCreateOps_filterMap_attachedId, List.append_nil]
  · rw [List.filterMap_cons]
    simp only [DbOp.itemRowData]
    rw [List.filterMap_append, filterMap_attach_itemRowData,
      itemCreateOps_filterMap_itemRowData, List.nil_append]
  · intro d hd
    rw [List.filterMap_cons] at hd
    simp only [DbOp.itemRowData] at hd
    rw [List.filterMap_append, filterMap_attach_itemRowData,
      itemCreateOps_filterMap_itemRowData, List.nil_append] at hd
    obtain ⟨it, -, rfl⟩ := List.mem_map.mp hd
    exact getField_omitField it idAttribute

/-- Witness for C2 at a concrete input: one unchanged item with id 7, one
added item carrying an incoming id 9 that is stripped. -/
theorem createNewSetWithItems_effects_witness :
    ∃ newOps : List DbOp,
      (createNewSetWithItems [[("id", FieldValue.num 7), ("name", FieldValue.str "a")]]
          [[("name", FieldValue.str "b"), ("id", FieldValue.num 9)]]
          "items" "id" ⟨10, []⟩).2.log
          = ([] : List DbOp) ++ newOps ∧
      newOps.countP DbOp.isInsertSetRow = 1 ∧
      newOps.filterMap DbOp.attachedId
          = [[("id", FieldValue.num 7), ("name", FieldValue.str "a")]].map
              (fun it => getField it "id") ∧
      newOps.filterMap DbOp.itemRowData
          = [[("name", FieldValue.str "b"), ("id", FieldValue.num 9)]].map
              (fun it => omitField it "id") ∧
      (∀ d ∈ newOps.filterMap DbOp.itemRowData, getField d "id" = none) :=
  createNewSetWithItems_effects
    [[("id", FieldValue.num 7), ("name", FieldValue.str "a")]]
    [[("name", FieldValue.str "b"), ("id", FieldValue.num 9)]]
    "items" "id" ⟨10, []⟩ (by decide) (by decide)

/-- C5: a materializing `createNewRelationshipAttributeSetWithItems` call
creates exactly one `RelationshipAttributeValue` row per added attribute
item, linked to the id newly generated for that item's attribute row and
carrying that item's `value.textValue`; the value rows are exactly this
pairing, so none is created for unchanged items. -/
theorem createNewRelationshipAttributeSetWithItems_valueRows
    (unchangedItems addedItems : List RelationshipAttributeT)
    (itemsAttribute idAttribute : String) (st : DbState)
    (hattr : itemsAttribute ≠ "")
    (hne : ¬(unchangedItems = [] ∧ addedItems = [])) :
    ∃ newOps : List DbOp,
      (createNewRelationshipAttributeSetWithItems unchangedItems addedItems
          itemsAttribute idAttribute st).2.log
          = st.log ++ newOps ∧
      ((newOps.filterMap DbOp.attributeRowId).length = addedItems.length ∧
        (newOps.filterMap DbOp.valueRow).length = addedItems.length) ∧
      newOps.filterMap DbOp.valueRow
          = (newOps.filterMap DbOp.attributeRowId).zip
              (addedItems.map (fun it => it.value.textValue)) := by
  have hemp : (unchangedItems.isEmpty && addedItems.isEmpty) = false := by
    cases unchangedItems <;> cases addedItems <;> simp_all
  have hids : ∀ newOps : List DbOp,
      newOps = DbOp.insertSetRow st.nextId ::
        (unchangedItems.map (fun it => DbOp.attach st.nextId (it.getAttr idAttribute)) ++
          attributeCreateOps st.nextId (st.nextId + 1) addedItems) →
      newOps.filterMap DbOp.attributeRowId
        = (attributeCreateOps st.nextId (st.nextId + 1) addedItems).filterMap
            DbOp.attributeRowId := by
    intro newOps hdef
    subst hdef
    rw [List.filterMap_cons]
    simp only [DbOp.attributeRowId]
    rw [List.filterMap_append, filterMap_attach_attributeRowId, List.nil_append]
  refine ⟨DbOp.insertSetRow st.nextId ::
      (unchangedItems.map (fun it => DbOp.attach st.nextId (it.getAttr idAttribute)) ++
        attributeCreateOps st.nextId (st.nextId + 1) addedItems),
    createNewRelationshipAttributeSetWithItems_log unchangedItems addedItems
      itemsAttribute idAttribute st hattr hemp, ?_, ?_⟩
  · constructor
    · rw [hids _ rfl]
      exact attributeCreateOps_rowId_length st.nextId addedItems (st.nextId + 1)
    · rw [List.filterMap_cons]
      simp only [DbOp.valueRow]
      rw [List.filterMap_append, filterMap_attach_valueRow, List.nil_append,
        attributeCreateOps_valueRows, List.length_zip,
        attributeCreateOps_rowId_length, List.length_map, Nat.min_self]
  · rw [hids _ rfl]
    rw [List.filterMap_cons]
    simp only [DbOp.valueRow]
    rw [List.filterMap_append, filterMap_attach_valueRow, List.nil_append,
      attributeCreateOps_valueRows]

/-- Witness for C5 at a concrete input: one unchanged attribute item and two
added items with text values. -/
theorem createNewRelationshipAttributeSetWithItems_valueRows_witness :
    ∃ newOps : List DbOp,
      (createNewRelationshipAttributeSetWithItems
          [⟨some 3, 1, ⟨"t"⟩⟩] [⟨none, 2, ⟨"x"⟩⟩, ⟨none, 5, ⟨"y"⟩⟩]
          "relationshipAttributes" "id" ⟨10, []⟩).2.log
          = ([] : List DbOp) ++ newOps ∧
      ((newOps.filterMap DbOp.attributeRowId).length
          = [(⟨none, 2, ⟨"x"⟩⟩ : RelationshipAttributeT), ⟨none, 5, ⟨"y"⟩⟩].length ∧
        (newOps.filterMap DbOp.valueRow).length
          = [(⟨none, 2, ⟨"x"⟩⟩ : RelationshipAttributeT), ⟨none, 5, ⟨"y"⟩⟩].length) ∧
      newOps.filterMap DbOp.valueRow
          = (newOps.filterMap DbOp.attributeRowId).zip
              ([(⟨none, 2, ⟨"x"⟩⟩ : RelationshipAttributeT), ⟨none, 5, ⟨"y"⟩⟩].map
                (fun it => it.value.textValue)) :=
  createNewRelationshipAttributeSetWithItems_valueRows
    [⟨some 3, 1, ⟨"t"⟩⟩] [⟨none, 2, ⟨"x"⟩⟩, ⟨none, 5, ⟨"y"⟩⟩]
    "relationshipAttributes" "id" ⟨10, []⟩ (by decide) (by decide)

/-- C3: with a non-blank `itemsAttribute` and both partitions empty, both
materializers return `none` ("no set") and leave the transaction state
untouched — no Set row, attach, item row or value row is persisted. -/
theorem emptyPartitions_noSet (itemsAttribute idAttribute : String) (st : DbState)
    (hattr : itemsAttribute ≠ "") :
    createNewSetWithItems [] [] itemsAttribute idAttribute st = (Except.ok none, st) ∧
    createNewRelationshipAttributeSetWithItems [] [] itemsAttribute idAttribute st
        = (Except.ok none, st) := by
  constructor
  · unfold createNewSetWithItems
    rw [if_neg hattr, if_pos (by simp)]
  · unfold createNewRelationshipAttributeSetWithItems
    rw [if_neg hattr, if_pos (by simp)]

/-- Witness for C3 at a concrete input. -/
theorem emptyPartitions_noSet_witness :
    createNewSetWithItems [] [] "items" "id" ⟨10, []⟩ = (Except.ok none, ⟨10, []⟩) ∧
    createNewRelationshipAttributeSetWithItems [] [] "items" "id" ⟨10, []⟩
        = (Except.ok none, ⟨10, []⟩) :=
  emptyPartitions_noSet "items" "id" ⟨10, []⟩ (by decide)

/-- C6: with a blank `itemsAttribute`, both materializers fail with the
invalid-argument error and leave the transaction state untouched, so the
failure precedes every persistence operation. -/
theorem blankItemsAttribute_error (idAttribute : String)
    (unchangedItems addedItems : List SetItemT)
    (unchangedAttrs addedAttrs : List RelationshipAttributeT) (st : DbState) :
    createNewSetWithItems unchangedItems addedItems "" idAttribute st
        = (Except.error (SetFuncError.invalidArgument
            "itemsAttribute must be set in createNewSetWithItems"), st) ∧
    createNewRelationshipAttributeSetWithItems unchangedAttrs addedAttrs "" idAttribute st
        = (Except.error (SetFuncError.invalidArgument
            "itemsAttribute must be set in createNewRelationshipAttributeSetWithItems"), st) :=
  ⟨rfl, rfl⟩

/-- C10: the `itemsAttribute` validity check precedes the empty-partition
short-circuit: with a blank `itemsAttribute` and both partitions empty, both
materializers raise the invalid-argument error instead of returning the
null result. -/
theorem blankAttribute_beforeShortCircuit (idAttribute : String) (st : DbState) :
    (createNewSetWithItems [] [] "" idAttribute st).1
        = Except.error (SetFuncError.invalidArgument
            "itemsAttribute must be set in createNewSetWithItems") ∧
    (createNewRelationshipAttributeSetWithItems [] [] "" idAttribute st).1
        = Except.error (SetFuncError.invalidArgument
            "itemsAttribute must be set in createNewRelationshipAttributeSetWithItems") :=
  ⟨rfl, rfl⟩
